import Mathlib

/-!
Verification of the wide-to-long table flattening pipeline
(`src/code/flatten_tables.py`).

The pipeline reads a CSV table, classifies its column headers into anchor
columns and time-series columns via a year regex, melts and pivots the
time-series columns into a tidy (Year, Metric) form, and finally applies a
per-column type-resolution heuristic (range-preserving vs numeric
coercion).  All of that is embedded below as executable Lean functions
over an explicit table model: a table is an ordered list of named columns,
and a cell is `Option String` (missing = `none`, matching a CSV blank /
pandas NaN).

Python string primitives (`str.replace`, `str.strip`, regex search of the
fixed year pattern) are re-implemented on `List Char` with Python's
semantics (`replace` replaces every non-overlapping occurrence left to
right; `strip(chars)` removes every leading and trailing character of the
set).  The numeric parser models `pd.to_numeric(errors="coerce")` on the
plain decimal forms that occur in the data (optional sign, digits,
optional fractional part); scientific notation is not modelled.

The pivot embeds `pivot_table(index=anchors+["Year"], columns="Metric",
values="temp_value", aggfunc="first")`: group keys with a missing
component are dropped, the aggregate of a (key, metric) group is its first
non-missing value in melt traversal order, keys and metric columns are
sorted, and all-missing rows/columns are dropped (`dropna=True`).
`pivot_table` raising is modelled by a boolean parameter selecting the
`except`-branch fallback, since the exact raising condition lives inside
the dataframe library.
-/

/-- Python `str.strip` whitespace predicate (ASCII subset actually used). -/
def isPySpace (c : Char) : Bool :=
  c == ' ' || c == '\t' || c == '\n' || c == '\r' || c == '\x0b' || c == '\x0c'

/-- Remove leading and trailing characters satisfying `p` (Python `strip`). -/
def stripEnds (p : Char → Bool) (l : List Char) : List Char :=
  ((l.dropWhile p).reverse.dropWhile p).reverse

/-- Worker for `replaceList`, structurally recursive on a fuel argument
so that it reduces in the kernel; each step consumes at least one input
character, so fuel equal to the input length never runs out. -/
def replaceListAux (pat rep : List Char) : Nat → List Char → List Char
  | _, [] => []
  | 0, l => l
  | fuel + 1, c :: l =>
    if pat ≠ [] ∧ pat.isPrefixOf (c :: l) then
      rep ++ replaceListAux pat rep fuel ((c :: l).drop pat.length)
    else
      c :: replaceListAux pat rep fuel l

/-- Python `str.replace pat rep`: replace every non-overlapping occurrence
of `pat`, scanning left to right. -/
def replaceList (pat rep : List Char) (l : List Char) : List Char :=
  replaceListAux pat rep l.length l

/-- `s.replace(pat, rep)` on strings. -/
def pyReplace (s pat rep : String) : String :=
  ⟨replaceList pat.data rep.data s.data⟩

/-- `s.strip()` on strings. -/
def pyStrip (s : String) : String :=
  ⟨stripEnds isPySpace s.data⟩

/-- `s.strip(chars)` on strings. -/
def pyStripChars (cs : List Char) (s : String) : String :=
  ⟨stripEnds (fun c => cs.contains c) s.data⟩

/-- Attempt to match the year pattern `\d{4}(?:[-–]\d{4})?` at the head of
the character list; greedy on the optional second year. -/
def yearMatchAt : List Char → Option (List Char)
  | a :: b :: c :: d :: rest =>
    if a.isDigit && b.isDigit && c.isDigit && d.isDigit then
      match rest with
      | e :: f :: g :: h :: i :: _ =>
        if (e == '-' || e == '–') && f.isDigit && g.isDigit && h.isDigit && i.isDigit then
          some [a, b, c, d, e, f, g, h, i]
        else some [a, b, c, d]
      | _ => some [a, b, c, d]
    else none
  | _ => none

/-- `re.search` of the year pattern: leftmost match wins. -/
def yearSearchList : List Char → Option (List Char)
  | [] => none
  | c :: l =>
    match yearMatchAt (c :: l) with
    | some m => some m
    | none => yearSearchList l

/-- Search a string for the first year-pattern match. -/
def yearSearch (s : String) : Option String :=
  (yearSearchList s.data).map (fun l => ⟨l⟩)

/-- `extract_year_and_metric` from the source: on a match, normalize
en-dash to hyphen in the year, delete the matched substring from the
header, strip whitespace then the bracket characters, and default the
metric to `"Value"` when empty; `(none, none)` when no match. -/
def extract_year_and_metric (colName : String) : Option String × Option String :=
  match yearSearch colName with
  | some mtxt =>
    let year := pyReplace mtxt "–" "-"
    let rem := pyStrip (pyReplace colName mtxt "")
    let rem2 := pyStripChars ['(', ')', '[', ']'] rem
    let metric := if rem2 = "" then "Value" else rem2
    (some year, some metric)
  | none => (none, none)

/-- Scan for the range pattern `\d+[-–]\d+` anywhere in the character
list: equivalent to the existence of a digit, dash, digit triple. -/
def hasRangeList : List Char → Bool
  | a :: b :: c :: l =>
    (a.isDigit && (b == '-' || b == '–') && c.isDigit) || hasRangeList (b :: c :: l)
  | _ => false

/-- `Series.str.contains(r"\d+[-–]\d+")` on one value. -/
def containsRange (s : String) : Bool := hasRangeList s.data

/-- Numeric value of a digit character. -/
def digitVal (c : Char) : Nat := c.toNat - '0'.toNat

/-- Value of a non-empty all-digit character list. -/
def digitsVal (l : List Char) : Option Nat :=
  if l.isEmpty then none
  else if l.all Char.isDigit then
    some (l.foldl (fun n c => n * 10 + digitVal c) 0)
  else none

/-- Unsigned decimal parser: digits with at most one decimal point. -/
def parseUnsigned (l : List Char) : Option ℚ :=
  if l.contains '.' then
    let ip := l.takeWhile (fun c => c ≠ '.')
    let fp := (l.dropWhile (fun c => c ≠ '.')).drop 1
    if fp.contains '.' then none
    else if ip.isEmpty && fp.isEmpty then none
    else if ip.isEmpty then
      (digitsVal fp).map (fun b => (b : ℚ) / (10 : ℚ) ^ fp.length)
    else if fp.isEmpty then
      (digitsVal ip).map (fun a => (a : ℚ))
    else
      match digitsVal ip, digitsVal fp with
      | some a, some b => some ((a : ℚ) + (b : ℚ) / (10 : ℚ) ^ fp.length)
      | _, _ => none
  else (digitsVal l).map (fun a => (a : ℚ))

/-- `pd.to_numeric(errors="coerce")` on one string value: `none` models a
parse failure coerced to NaN. -/
def parseNum (s : String) : Option ℚ :=
  match stripEnds isPySpace s.data with
  | '+' :: l => parseUnsigned l
  | '-' :: l => (parseUnsigned l).map (fun q => -q)
  | l => parseUnsigned l

/-- A cell of the dataframe before type resolution: missing or text. -/
abbrev Cell := Option String

/-- A dataframe: ordered named columns of row-aligned cells. -/
structure Table where
  cols : List (String × List Cell)
deriving DecidableEq

/-- A resolved value: preserved text or a coerced number. -/
inductive RVal where
  | text (s : String)
  | num (q : ℚ)
deriving DecidableEq

/-- A cell after type resolution. -/
abbrev RCell := Option RVal

/-- The dataframe after type resolution. -/
structure RTable where
  cols : List (String × List RCell)
deriving DecidableEq

/-- The ordered column headers of a table. -/
def Table.headers (t : Table) : List String := t.cols.map (·.1)

/-- Row count of a table (all columns are row-aligned). -/
def rowCount (t : Table) : Nat :=
  match t.cols with
  | [] => 0
  | c :: _ => c.2.length

/-- `df.empty`: no columns or no rows. -/
def dfEmpty (t : Table) : Bool := t.cols.isEmpty || rowCount t == 0

/-- Cell of column `c` at row `i`. -/
def colVal (t : Table) (c : String) (i : Nat) : Cell :=
  ((List.lookup c t.cols).getD []).getD i none

/-- View an unresolved table as a resolved one (all cells kept as text). -/
def textify (t : Table) : RTable :=
  ⟨t.cols.map (fun c => (c.1, c.2.map (Option.map RVal.text)))⟩

/-- Row count of a resolved table. -/
def rtRowCount (rt : RTable) : Nat :=
  match rt.cols with
  | [] => 0
  | c :: _ => c.2.length

/-- The rows of a resolved table, reconstructed from its columns. -/
def rtRows (rt : RTable) : List (List RCell) :=
  (List.range (rtRowCount rt)).map (fun i => rt.cols.map (fun c => c.2.getD i none))

/-- `time_series_cols`: headers on which the year search succeeds, in
original order. -/
def tsColsOf (hdrs : List String) : List String :=
  hdrs.filter (fun h => (yearSearch h).isSome)

/-- `id_vars`: every header that is not a time-series column. -/
def idVarsOf (hdrs : List String) : List String :=
  hdrs.filter (fun c => !((tsColsOf hdrs).contains c))

/-- One row of `df_melt` after the Year/Metric map step: anchor values,
the original header, the cell value, and the mapped year and metric. -/
structure MRow where
  anchors : List Cell
  origHeader : String
  val : Cell
  year : String
  metric : String
deriving DecidableEq

/-- `df.melt(id_vars, value_vars=time_series_cols)` followed by the
Year/Metric mapping: one row per (time-series column, original row) pair,
in pandas melt order (value-variable-major). -/
def meltMap (t : Table) (idv ts : List String) : List MRow :=
  (ts.map (fun v =>
    let ym := extract_year_and_metric v
    (List.range (rowCount t)).map (fun i =>
      { anchors := idv.map (fun c => colVal t c i)
        origHeader := v
        val := colVal t v i
        year := (ym.1).getD ""
        metric := (ym.2).getD "" }))).flatten

/-- Code-unit order on character lists. -/
def clLe : List Char → List Char → Bool
  | [], _ => true
  | _ :: _, [] => false
  | a :: as, b :: bs => if a = b then clLe as bs else decide (a < b)

/-- Lexicographic order on strings (pandas sorts string labels this way). -/
def strLeB (a b : String) : Bool := clLe a.data b.data

/-- Order on cells used for sorting group keys. -/
def cellLe : Cell → Cell → Bool
  | none, _ => true
  | some _, none => false
  | some a, some b => strLeB a b

/-- Lexicographic order on group keys. -/
def keyLe : List Cell → List Cell → Bool
  | [], _ => true
  | _ :: _, [] => false
  | a :: as, b :: bs => if a = b then keyLe as bs else cellLe a b

/-- Ordered insertion for the sort below. -/
def insLe (le : α → α → Bool) (a : α) : List α → List α
  | [] => [a]
  | b :: l => if le a b then a :: b :: l else b :: insLe le a l

/-- Insertion sort (models the sorting `pivot_table` applies to group
keys and to metric column labels). -/
def sortLe (le : α → α → Bool) : List α → List α
  | [] => []
  | a :: l => insLe le a (sortLe le l)

/-- Index of the first occurrence of `a`. -/
def firstIdx [DecidableEq α] (a : α) : List α → Nat
  | [] => 0
  | b :: l => if b = a then 0 else firstIdx a l + 1

/-- The pivot grouping key of a melted row: anchor values then year. -/
def mKey (r : MRow) : List Cell := r.anchors ++ [some r.year]

/-- `aggfunc="first"` of a (key, metric) group: the first non-missing
value among the group's rows in melt traversal order. -/
def pivotAgg (melted : List MRow) (k : List Cell) (m : String) : Cell :=
  (melted.find? (fun r => mKey r == k && r.metric == m && r.val.isSome)).bind (fun r => r.val)

/-- Distinct group keys, after dropping keys with a missing component
(pandas `groupby(dropna=True)`). -/
def pivotValidKeys (melted : List MRow) : List (List Cell) :=
  ((melted.map mKey).filter (fun k => k.all Option.isSome)).dedup

/-- Valid group keys in sorted order (`pivot_table` sorts the index). -/
def pivotSortedKeys (melted : List MRow) : List (List Cell) :=
  sortLe keyLe (pivotValidKeys melted)

/-- Distinct metric labels in sorted order (`pivot_table` sorts the
column labels). -/
def pivotAllMetrics (melted : List MRow) : List String :=
  sortLe strLeB ((melted.map (fun r => r.metric)).dedup)

/-- Group keys kept as output rows: `dropna=True` drops a key all of
whose metric aggregates are missing. -/
def pivotKeys (melted : List MRow) : List (List Cell) :=
  (pivotSortedKeys melted).filter
    (fun k => (pivotAllMetrics melted).any (fun m => (pivotAgg melted k m).isSome))

/-- Metric labels kept as output columns: `dropna=True` drops a metric
all of whose aggregates are missing. -/
def pivotMetrics (melted : List MRow) : List String :=
  (pivotAllMetrics melted).filter
    (fun m => (pivotSortedKeys melted).any (fun k => (pivotAgg melted k m).isSome))

/-- Columns produced by `reset_index`: one column per index level name,
level `j0` onward, each holding that component of every kept key. -/
def keyCols (names : List String) (j0 : Nat) (ks : List (List Cell)) :
    List (String × List Cell) :=
  match names with
  | [] => []
  | nm :: rest => (nm, ks.map (fun k => k.getD j0 none)) :: keyCols rest (j0 + 1) ks

/-- The pivoted output table: anchor and Year columns from the index,
then one sorted column per kept metric. -/
def pivotOut (idv : List String) (melted : List MRow) : Table :=
  ⟨keyCols (idv ++ ["Year"]) 0 (pivotKeys melted) ++
    (pivotMetrics melted).map
      (fun m => (m, (pivotKeys melted).map (fun k => pivotAgg melted k m)))⟩

/-- The `except`-branch output: `df_melt.drop(columns=["original_header"])`.
Melt placed the value column before the appended Year and Metric columns,
so the order is anchors, `temp_value`, `Year`, `Metric`. -/
def fallbackOut (idv : List String) (melted : List MRow) : Table :=
  ⟨keyCols idv 0 (melted.map (fun r => r.anchors)) ++
    [("temp_value", melted.map (fun r => r.val)),
     ("Year", melted.map (fun r => some r.year)),
     ("Metric", melted.map (fun r => some r.metric))]⟩

/-- Step 3 of `process_table` on one column: anchors and `Year` are
exempt; an all-missing column is skipped; a column with a range-pattern
value anywhere stays text; otherwise every cell is coerced with
`pd.to_numeric(errors="coerce")`. -/
def resolveColumn (idv : List String) (name : String) (vs : List Cell) : List RCell :=
  if idv.contains name || name == "Year" then vs.map (Option.map RVal.text)
  else
    let sample := vs.filterMap id
    if sample.isEmpty then vs.map (Option.map RVal.text)
    else if sample.any containsRange then vs.map (Option.map RVal.text)
    else vs.map (fun c => (c.bind parseNum).map RVal.num)

/-- Step 3 of `process_table` applied to every column of the output. -/
def resolveTypes (idv : List String) (t : Table) : RTable :=
  ⟨t.cols.map (fun c => (c.1, resolveColumn idv c.1 c.2))⟩

/-- The per-file pipeline of `process_table` after the CSV read: skip
empty frames, classify the columns, pass through or melt and pivot, and
resolve the column types.  `pivotOk = false` selects the `except` branch
of the `pivot_table` call. -/
def process_table (pivotOk : Bool) (t : Table) : Option RTable :=
  if dfEmpty t then none
  else
    let ts := tsColsOf t.headers
    let idv := idVarsOf t.headers
    if ts.isEmpty then some (resolveTypes idv t)
    else
      let melted := meltMap t idv ts
      let out := if pivotOk then pivotOut idv melted else fallbackOut idv melted
      some (resolveTypes idv out)

/-- Remove at most one character satisfying `p` from the head. -/
def dropOneIf (p : Char → Bool) : List Char → List Char
  | [] => []
  | c :: l => if p c then l else c :: l

/-- Modelled from the spec: strip ONE layer of enclosing bracket
characters from the edges of a string (at most one character per edge),
as claim C4 words the metric clean-up. -/
def stripOneLayer (cs : List Char) (s : String) : String :=
  ⟨(dropOneIf (fun c => cs.contains c)
      ((dropOneIf (fun c => cs.contains c) s.data).reverse)).reverse⟩

/-- Modelled from the spec: remove only the FIRST occurrence of `pat`,
as claim C4 words the removal of the matched year substring. -/
def removeFirstOcc (pat : List Char) : List Char → List Char
  | [] => []
  | c :: l =>
    if pat ≠ [] ∧ pat.isPrefixOf (c :: l) then (c :: l).drop pat.length
    else c :: removeFirstOcc pat l

/-- Modelled from the spec: the extractor exactly as claim C4 states it —
first match, en-dash normalized, FIRST occurrence of the match removed,
whitespace trimmed, ONE layer of brackets stripped, `"Value"` default. -/
def extractClaimed (colName : String) : Option String × Option String :=
  match yearSearch colName with
  | some mtxt =>
    (some (pyReplace mtxt "–" "-"),
     some (
       let rem := pyStrip ⟨removeFirstOcc mtxt.data colName.data⟩
       let rem2 := stripOneLayer ['(', ')', '[', ']'] rem
       if rem2 = "" then "Value" else rem2))
  | none => (none, none)

/-- The amended reading of claim C4: EVERY occurrence of the matched
substring is removed and ALL leading and trailing bracket characters are
stripped, matching Python `str.replace` and `str.strip`. -/
def extractAmended (colName : String) : Option String × Option String :=
  match yearSearch colName with
  | some mtxt =>
    (some (pyReplace mtxt "–" "-"),
     some (
       let rem := pyStrip (pyReplace colName mtxt "")
       let rem2 := pyStripChars ['(', ')', '[', ']'] rem
       if rem2 = "" then "Value" else rem2))
  | none => (none, none)

/-- Claim C1's input: columns `[ID, Sex, "2018 Rate", "2019 Rate"]`, 2 rows. -/
def c1tab : Table :=
  ⟨[("ID", [some "A", some "B"]), ("Sex", [some "M", some "F"]),
    ("2018 Rate", [some "10-20", some "30-40"]),
    ("2019 Rate", [some "50-60", some "70-80"])]⟩

/-- Claim C2's input: two time-series headers both mapping to
(2018, Rate); the single row's first contribution is missing and the
second is `"5"`. -/
def c2tab : Table :=
  ⟨[("ID", [some "A"]), ("Rate 2018", [none]), ("Rate  2018", [some "5"])]⟩

/-- The melted form of `c2tab` (its id vars are `["ID"]` and its
time-series columns are the two Rate headers). -/
def c2melt : List MRow := meltMap c2tab ["ID"] ["Rate 2018", "Rate  2018"]

/-- Claim C7's input: one anchor and one time-series column. -/
def c7tab : Table := ⟨[("ID", [some "A"]), ("2018 Rate", [some "7"])]⟩

/-- Claim C8's counterexample input: the header `"Rate 2018 2019"`
contains two year substrings, so its metric name keeps one of them. -/
def c8tab : Table := ⟨[("ID", [some "A"]), ("Rate 2018 2019", [some "7"])]⟩

/-- Claim C8's witness input: a flatten-path table whose single metric
name `"Rate"` does not match the year pattern. -/
def c8wtab : Table := ⟨[("ID", [some "A"]), ("2018 Rate", [some "7"])]⟩

/-- Claim C9's counterexample input: the single row has a missing Sex
anchor, so the pivot grouping drops it entirely. -/
def c9tab : Table :=
  ⟨[("ID", [some "A"]), ("Sex", [none]), ("2018 Rate", [some "7"])]⟩

/-- Claim C9's witness input: two anchors, all values present. -/
def c9wtab : Table :=
  ⟨[("ID", [some "A"]), ("Sex", [some "M"]), ("2018 Rate", [some "7"])]⟩

/-- Claim C10's witness input: the ID anchor of the only row is missing. -/
def c10tab : Table :=
  ⟨[("ID", [none]), ("X", [some "x"]), ("2018 V", [some "3"])]⟩

theorem insLe_perm (le : α → α → Bool) (a : α) (l : List α) :
    (insLe le a l).Perm (a :: l) := by
  induction l with
  | nil => exact List.Perm.refl _
  | cons b t ih =>
    simp only [insLe]
    by_cases hc : le a b = true
    · simp [hc]
    · simp only [hc, if_false]
      exact (ih.cons b).trans (List.Perm.swap a b t)

theorem sortLe_perm (le : α → α → Bool) (l : List α) :
    (sortLe le l).Perm l := by
  induction l with
  | nil => exact List.Perm.refl _
  | cons a t ih => exact (insLe_perm le a (sortLe le t)).trans (ih.cons a)

theorem mem_sortLe {le : α → α → Bool} {l : List α} {a : α} :
    a ∈ sortLe le l ↔ a ∈ l :=
  (sortLe_perm le l).mem_iff

theorem nodup_sortLe {le : α → α → Bool} {l : List α} (h : l.Nodup) :
    (sortLe le l).Nodup :=
  ((sortLe_perm le l).nodup_iff).mpr h

theorem getD_map_of_lt (f : α → β) {l : List α} {j : Nat} (h : j < l.length)
    (d₁ : β) (d₂ : α) : (l.map f).getD j d₁ = f (l.getD j d₂) := by
  induction l generalizing j with
  | nil => simp at h
  | cons a t ih =>
    cases j with
    | zero => simp
    | succ n =>
      simp only [List.map_cons, List.getD_cons_succ]
      exact ih (by simpa using h)

theorem getD_append_left_of_lt {l₁ l₂ : List α} {j : Nat} (h : j < l₁.length)
    (d : α) : (l₁ ++ l₂).getD j d = l₁.getD j d := by
  induction l₁ generalizing j with
  | nil => simp at h
  | cons a t ih =>
    cases j with
    | zero => simp
    | succ n =>
      simp only [List.cons_append, List.getD_cons_succ]
      exact ih (by simpa using h)

theorem getD_mem_of_lt {l : List α} {j : Nat} (h : j < l.length) (d : α) :
    l.getD j d ∈ l := by
  induction l generalizing j with
  | nil => simp at h
  | cons a t ih =>
    cases j with
    | zero => simp
    | succ n =>
      simp only [List.getD_cons_succ]
      exact List.mem_cons_of_mem a (ih (by simpa using h))

theorem firstIdx_getD_map [DecidableEq α] {l : List α} {a : α} (h : a ∈ l)
    (f : α → β) (d : β) : (l.map f).getD (firstIdx a l) d = f a := by
  induction l with
  | nil => simp at h
  | cons b t ih =>
    simp only [firstIdx]
    by_cases hb : b = a
    · simp [hb]
    · simp only [hb, if_false, List.map_cons, List.getD_cons_succ]
      exact ih ((List.mem_cons.mp h).resolve_left (fun hab => hb hab.symm))

theorem lookup_append_of_none {β : Type _} {A B : List (String × β)} {m : String}
    (h : List.lookup m A = none) :
    List.lookup m (A ++ B) = List.lookup m B := by
  induction A with
  | nil => rfl
  | cons p t ih =>
    obtain ⟨k, v⟩ := p
    simp only [List.lookup, List.cons_append] at h ⊢
    cases hk : (m == k) with
    | true => simp [hk] at h
    | false =>
      simp only [hk] at h ⊢
      exact ih h

theorem lookup_map_self {β : Type _} {mets : List String} {m : String}
    (f : String → β) (h : m ∈ mets) :
    List.lookup m (mets.map (fun x => (x, f x))) = some (f m) := by
  induction mets with
  | nil => simp at h
  | cons b t ih =>
    simp only [List.map_cons, List.lookup]
    cases hb : (m == b) with
    | true =>
      have hbm : m = b := by simpa using hb
      simp only [hb]
      rw [hbm]
    | false =>
      have hbm : m ≠ b := by simpa using hb
      simp only [hb]
      exact ih ((List.mem_cons.mp h).resolve_left hbm)

theorem keyCols_names (names : List String) (j0 : Nat) (ks : List (List Cell)) :
    (keyCols names j0 ks).map (·.1) = names := by
  induction names generalizing j0 with
  | nil => rfl
  | cons nm rest ih => simp [keyCols, ih]

theorem keyCols_length (names : List String) (j0 : Nat) (ks : List (List Cell)) :
    (keyCols names j0 ks).length = names.length := by
  induction names generalizing j0 with
  | nil => rfl
  | cons nm rest ih => simp [keyCols, ih]

theorem keyCols_lookup_none {names : List String} {m : String}
    (h : m ∉ names) (j0 : Nat) (ks : List (List Cell)) :
    List.lookup m (keyCols names j0 ks) = none := by
  induction names generalizing j0 with
  | nil => rfl
  | cons nm rest ih =>
    simp only [keyCols, List.lookup]
    cases hk : (m == nm) with
    | true =>
      have hmn : m = nm := by simpa using hk
      exact absurd (hmn ▸ List.mem_cons_self nm rest) h
    | false =>
      simp only [hk]
      exact ih (fun hm => h (List.mem_cons_of_mem nm hm)) _

theorem keyCols_get? {names : List String} {j : Nat} (h : j < names.length)
    (j0 : Nat) (ks : List (List Cell)) :
    (keyCols names j0 ks).get? j =
      some (names.getD j "", ks.map (fun k => k.getD (j0 + j) none)) := by
  induction names generalizing j j0 with
  | nil => simp at h
  | cons nm rest ih =>
    cases j with
    | zero => rfl
    | succ n =>
      simp only [keyCols, List.get?_cons_succ, List.getD_cons_succ]
      rw [ih (by simpa using h) (j0 + 1)]
      simp only [show j0 + 1 + n = j0 + (n + 1) from by omega]

theorem mem_pivotKeys_allSome {melted : List MRow} {k : List Cell}
    (h : k ∈ pivotKeys melted) : k.all Option.isSome = true := by
  simp only [pivotKeys, List.mem_filter] at h
  have h2 : k ∈ pivotValidKeys melted := mem_sortLe.mp h.1
  simp only [pivotValidKeys, List.mem_dedup, List.mem_filter] at h2
  exact h2.2

theorem map_text_eq_map_num_of_none {vs : List Cell}
    (h : ∀ c ∈ vs, c = none) :
    vs.map (Option.map RVal.text) = vs.map (fun c => (c.bind parseNum).map RVal.num) := by
  induction vs with
  | nil => rfl
  | cons a t ih =>
    have ha : a = none := h a (List.mem_cons_self a t)
    subst ha
    simp only [List.map_cons, Option.map_none', Option.bind]
    exact congrArg _ (ih (fun c hc => h c (List.mem_cons_of_mem _ hc)))

theorem resolveColumn_exempt {idv : List String} {name : String} {vs : List Cell}
    (h : idv.contains name = true ∨ name = "Year") :
    resolveColumn idv name vs = vs.map (Option.map RVal.text) := by
  have hc : (idv.contains name || name == "Year") = true := by
    rcases h with h | h
    · rw [h, Bool.true_or]
    · subst h
      simp
  unfold resolveColumn
  rw [hc]
  simp

theorem meltMap_length (t : Table) (idv ts : List String) :
    (meltMap t idv ts).length = ts.length * rowCount t := by
  simp only [meltMap, List.length_flatten, List.map_map]
  induction ts with
  | nil => simp
  | cons v rest ih =>
    simp only [List.map_cons, List.sum_cons, ih, Function.comp_apply,
      List.length_map, List.length_range, List.length_cons]
    ring

theorem contains_of_mem {l : List String} {a : String} (h : a ∈ l) :
    l.contains a = true :=
  List.elem_eq_true_of_mem h

theorem resolveTypes_all_exempt (t : Table) :
    resolveTypes t.headers t = textify t := by
  simp only [resolveTypes, textify]
  congr 1
  apply List.map_congr_left
  intro c hc
  have hmem : c.1 ∈ t.headers := List.mem_map_of_mem (·.1) hc
  rw [resolveColumn_exempt (Or.inl (contains_of_mem hmem))]

theorem process_passThrough (b : Bool) (t : Table) (h1 : dfEmpty t = false)
    (h2 : ∀ h ∈ t.headers, yearSearch h = none) :
    process_table b t = some (textify t) := by
  have hts : tsColsOf t.headers = [] := by
    simp only [tsColsOf]
    rw [List.filter_eq_nil]
    intro a ha
    simp [h2 a ha]
  have hidv : idVarsOf t.headers = t.headers := by
    simp only [idVarsOf, hts]
    rw [List.filter_eq_self]
    intro a _
    rfl
  simp only [process_table, h1, hts, hidv, resolveTypes_all_exempt]
  simp

/-- C1: on the flatten path, the example table with columns
`[ID, Sex, "2018 Rate", "2019 Rate"]` and 2 rows yields an output with
columns `[ID, Sex, Year, Rate]` and 4 rows (2 rows × 2 time-series
columns), and each output row's Rate value equals the corresponding cell
of the original table ((A,M,2018) ↦ "10-20", (A,M,2019) ↦ "50-60",
(B,F,2018) ↦ "30-40", (B,F,2019) ↦ "70-80"). -/
theorem claim1_flatten_example :
    (process_table true c1tab).map (fun r => r.cols.map (·.1)) =
      some ["ID", "Sex", "Year", "Rate"] ∧
    (process_table true c1tab).map rtRowCount = some 4 ∧
    (process_table true c1tab).map (fun r =>
      ([[some (RVal.text "A"), some (RVal.text "M"), some (RVal.text "2018"), some (RVal.text "10-20")],
        [some (RVal.text "A"), some (RVal.text "M"), some (RVal.text "2019"), some (RVal.text "50-60")],
        [some (RVal.text "B"), some (RVal.text "F"), some (RVal.text "2018"), some (RVal.text "30-40")],
        [some (RVal.text "B"), some (RVal.text "F"), some (RVal.text "2019"), some (RVal.text "70-80")]] :
        List (List RCell)).all (fun row => (rtRows r).contains row)) = some true := by
  refine ⟨by decide, by decide, by decide⟩

/-- C3: a non-empty table none of whose headers matches the year pattern
takes the pass-through path and is returned unchanged — same columns in
the same order, same values, same row order, no type coercion (every cell
is kept as its original text). -/
theorem claim3_passthrough_identity (b : Bool) (t : Table)
    (h1 : dfEmpty t = false) (h2 : ∀ h ∈ t.headers, yearSearch h = none) :
    process_table b t = some (textify t) :=
  process_passThrough b t h1 h2

/-- Witness for C3 at a concrete two-column, one-row table. -/
theorem claim3_witness :
    process_table true ⟨[("ID", [some "A"]), ("Name", [some "x"])]⟩ =
      some (textify ⟨[("ID", [some "A"]), ("Name", [some "x"])]⟩) :=
  claim3_passthrough_identity true _ (by decide) (by decide)

/-- C4 counterexample: on the header `"2018 ((Rate)) 2018"` the code
removes EVERY occurrence of the matched `"2018"` and strips ALL edge
brackets, giving metric `"Rate"`, whereas the claim's procedure (remove
only the first occurrence, strip one bracket layer) would give
`"(Rate)) 2018"`; so the claim's description of the extractor is false. -/
theorem claim4_counterexample :
    extract_year_and_metric "2018 ((Rate)) 2018" = (some "2018", some "Rate") ∧
    extractClaimed "2018 ((Rate)) 2018" = (some "2018", some "(Rate)) 2018") ∧
    extract_year_and_metric "2018 ((Rate)) 2018" ≠ extractClaimed "2018 ((Rate)) 2018" := by
  refine ⟨by decide, by decide, by decide⟩

/-- C4 amended: the extractor searches for the first year-pattern match,
normalizes en-dash to hyphen, removes EVERY occurrence of the matched
substring, trims whitespace, strips ALL leading and trailing bracket
characters, defaults to `"Value"` when empty, and returns absent/absent
when there is no match — i.e. it coincides with `extractAmended`. -/
theorem claim4_extract_amended (s : String) :
    extract_year_and_metric s = extractAmended s := by
  unfold extract_year_and_metric extractAmended
  cases yearSearch s <;> rfl

theorem beq_year_false {name : String} (hny : name ≠ "Year") :
    (name == "Year") = false :=
  beq_eq_false_iff_ne.mpr hny

/-- C5: a non-exempt column with at least one non-missing value matching
the range pattern `\d+[-–]\d+` is classified range/text and every value
is left unmodified by the Type Resolver (kept as its original text, no
value coerced, no value nulled). -/
theorem claim5_range_preserved (idv : List String) (t : Table) (name : String)
    (vs : List Cell) (hmem : (name, vs) ∈ t.cols)
    (hni : idv.contains name = false) (hny : name ≠ "Year")
    (hr : (vs.filterMap id).any containsRange = true) :
    (name, vs.map (Option.map RVal.text)) ∈ (resolveTypes idv t).cols := by
  have hne : (vs.filterMap id).isEmpty = false := by
    cases hfm : vs.filterMap id with
    | nil => rw [hfm] at hr; simp at hr
    | cons a l => rfl
  have hcol : resolveColumn idv name vs = vs.map (Option.map RVal.text) := by
    simp [resolveColumn, hni, beq_year_false hny, hne, hr]
  rw [← hcol]
  exact List.mem_map_of_mem (fun c => (c.1, resolveColumn idv c.1 c.2)) hmem

/-- Witness for C5: a column holding `"100-200"` and `"12"` stays text. -/
theorem claim5_witness :
    ("V", [some (RVal.text "100-200"), some (RVal.text "12")]) ∈
      (resolveTypes ["ID"]
        ⟨[("ID", [some "A", some "B"]), ("V", [some "100-200", some "12"])]⟩).cols := by
  have h := claim5_range_preserved ["ID"]
    ⟨[("ID", [some "A", some "B"]), ("V", [some "100-200", some "12"])]⟩
    "V" [some "100-200", some "12"] (by decide) (by decide) (by decide) (by decide)
  have h2 : ([some "100-200", some "12"] : List Cell).map (Option.map RVal.text) =
      [some (RVal.text "100-200"), some (RVal.text "12")] := by decide
  rw [← h2]
  exact h

/-- C6: a non-exempt column with no range-pattern value has every cell
coerced with `pd.to_numeric(errors="coerce")`: parsable values become
numbers and unparsable values become missing, never an error. -/
theorem claim6_numeric_coercion (idv : List String) (t : Table) (name : String)
    (vs : List Cell) (hmem : (name, vs) ∈ t.cols)
    (hni : idv.contains name = false) (hny : name ≠ "Year")
    (hr : (vs.filterMap id).any containsRange = false) :
    (name, vs.map (fun c => (c.bind parseNum).map RVal.num)) ∈ (resolveTypes idv t).cols := by
  have hcol : resolveColumn idv name vs =
      vs.map (fun c => (c.bind parseNum).map RVal.num) := by
    cases hs : (vs.filterMap id).isEmpty with
    | true =>
      have hall : ∀ c ∈ vs, c = none := by
        have hnil : vs.filterMap id = [] := by
          cases hfm : vs.filterMap id with
          | nil => rfl
          | cons a l => rw [hfm] at hs; simp at hs
        intro c hc
        exact (List.filterMap_eq_nil.mp hnil) c hc
      rw [← map_text_eq_map_num_of_none hall]
      simp [resolveColumn, hni, beq_year_false hny, hs]
    | false =>
      have hnm : name ∉ idv := fun hm => by rw [contains_of_mem hm] at hni; cases hni
      simp [resolveColumn, hnm, beq_year_false hny, hs, hr]
  rw [← hcol]
  exact List.mem_map_of_mem (fun c => (c.1, resolveColumn idv c.1 c.2)) hmem

/-- Witness for C6: the column `["12", "15", "F"]` becomes numeric 12,
numeric 15, and a missing value for the sentinel `"F"`. -/
theorem claim6_witness :
    ("M", [some (RVal.num 12), some (RVal.num 15), none]) ∈
      (resolveTypes ["ID"]
        ⟨[("ID", [some "A", some "B", some "C"]),
          ("M", [some "12", some "15", some "F"])]⟩).cols := by
  have h := claim6_numeric_coercion ["ID"]
    ⟨[("ID", [some "A", some "B", some "C"]),
      ("M", [some "12", some "15", some "F"])]⟩
    "M" [some "12", some "15", some "F"] (by decide) (by decide) (by decide) (by decide)
  have h2 : ([some "12", some "15", some "F"] : List Cell).map
      (fun c => (c.bind parseNum).map RVal.num) =
      [some (RVal.num 12), some (RVal.num 15), none] := by decide
  rw [← h2]
  exact h

theorem resolveTypes_headers (idv : List String) (u : Table) :
    (resolveTypes idv u).cols.map (·.1) = u.cols.map (·.1) := by
  simp [resolveTypes, List.map_map, Function.comp]

theorem resolveColumn_length (idv : List String) (name : String) (vs : List Cell) :
    (resolveColumn idv name vs).length = vs.length := by
  simp only [resolveColumn]
  split
  · simp
  · split
    · simp
    · split <;> simp

theorem keyCols_col_length (names : List String) (j0 : Nat) (ks : List (List Cell)) :
    ∀ c ∈ keyCols names j0 ks, c.2.length = ks.length := by
  induction names generalizing j0 with
  | nil => intro c hc; simp [keyCols] at hc
  | cons nm rest ih =>
    intro c hc
    simp only [keyCols, List.mem_cons] at hc
    rcases hc with rfl | hc
    · simp
    · exact ih (j0 + 1) c hc

theorem idVars_no_year {hdrs : List String} {c : String} (h : c ∈ idVarsOf hdrs) :
    yearSearch c = none := by
  simp only [idVarsOf, List.mem_filter] at h
  obtain ⟨hmem, hnc⟩ := h
  cases hy : yearSearch c with
  | none => rfl
  | some m =>
    exfalso
    have hts : c ∈ tsColsOf hdrs := by
      simp only [tsColsOf, List.mem_filter]
      exact ⟨hmem, by simp [hy]⟩
    rw [contains_of_mem hts] at hnc
    simp at hnc

/-- C7 counterexample: on a concrete table the `except`-branch output has
columns in the order anchors, `temp_value`, `Year`, `Metric` — not the
claimed anchors, `Year`, `Metric`, value — and the subsequent type
resolution has coerced the Metric value `"Rate"` to missing, so the
emitted table is not the intermediate long-format table either. -/
theorem claim7_counterexample :
    process_table false c7tab =
      some ⟨[("ID", [some (RVal.text "A")]),
             ("temp_value", [some (RVal.num 7)]),
             ("Year", [some (RVal.text "2018")]),
             ("Metric", [none])]⟩ ∧
    (process_table false c7tab).map (fun r => r.cols.map (·.1)) ≠
      some ["ID", "Year", "Metric", "temp_value"] := by
  refine ⟨by decide, by decide⟩

/-- C7 amended: on the fallback path the engine emits the melted table
with the original-header column dropped — columns in order anchors,
`temp_value`, `Year`, `Metric`, with one row per (original row,
time-series column) pair — and the Type Resolver then runs over the
non-exempt `temp_value` and `Metric` columns; output is still written. -/
theorem claim7_fallback_shape (t : Table) (h1 : dfEmpty t = false)
    (hts : tsColsOf t.headers ≠ []) :
    ∃ out, process_table false t = some out ∧
      out.cols.map (·.1) = idVarsOf t.headers ++ ["temp_value", "Year", "Metric"] ∧
      ∀ c ∈ out.cols, c.2.length = (tsColsOf t.headers).length * rowCount t := by
  have hne : (tsColsOf t.headers).isEmpty = false := by
    cases hv : tsColsOf t.headers with
    | nil => exact absurd hv hts
    | cons a l => rfl
  refine ⟨resolveTypes (idVarsOf t.headers)
      (fallbackOut (idVarsOf t.headers)
        (meltMap t (idVarsOf t.headers) (tsColsOf t.headers))), ?_, ?_, ?_⟩
  · simp only [process_table, h1, hne]
    simp
  · rw [resolveTypes_headers]
    simp [fallbackOut, keyCols_names]
  · intro c hc
    obtain ⟨c', hc', rfl⟩ := List.mem_map.mp hc
    simp only [resolveColumn_length]
    rcases List.mem_append.mp hc' with h | h
    · rw [keyCols_col_length _ _ _ c' h]
      simp [meltMap_length]
    · simp only [List.mem_cons, List.not_mem_nil, or_false] at h
      rcases h with rfl | rfl | rfl <;>
        simp [meltMap_length]

/-- Witness for C7 at a concrete one-row table. -/
theorem claim7_witness :
    ∃ out, process_table false c7tab = some out ∧
      out.cols.map (·.1) = idVarsOf c7tab.headers ++ ["temp_value", "Year", "Metric"] ∧
      ∀ c ∈ out.cols, c.2.length = (tsColsOf c7tab.headers).length * rowCount c7tab :=
  claim7_fallback_shape c7tab (by decide) (by decide)

/-- C8 counterexample: flattening the table with header
`"Rate 2018 2019"` produces the metric column `"Rate  2019"`, which
still matches the year pattern, so a second pass detects ONE time-series
column — not zero — refuting the claim for this flattened output. -/
theorem claim8_counterexample :
    (process_table true c8tab).map (fun r => r.cols.map (·.1)) =
      some ["ID", "Year", "Rate  2019"] ∧
    tsColsOf ["ID", "Year", "Rate  2019"] = ["Rate  2019"] := by
  refine ⟨by decide, by decide⟩

/-- C8 amended: the flattened output's columns are the anchors, `Year`,
and the metric names; anchors and `Year` never match the year pattern,
and PROVIDED no metric name matches it either, a second pass over a
table with those headers detects zero time-series columns and is a
pass-through no-op. -/
theorem claim8_second_pass (b : Bool) (t : Table) (h1 : dfEmpty t = false)
    (hts : tsColsOf t.headers ≠ [])
    (hm : ∀ m ∈ pivotMetrics (meltMap t (idVarsOf t.headers) (tsColsOf t.headers)),
      yearSearch m = none) :
    (process_table true t).map (fun r => r.cols.map (·.1)) =
      some (idVarsOf t.headers ++ ["Year"] ++
        pivotMetrics (meltMap t (idVarsOf t.headers) (tsColsOf t.headers))) ∧
    tsColsOf (idVarsOf t.headers ++ ["Year"] ++
        pivotMetrics (meltMap t (idVarsOf t.headers) (tsColsOf t.headers))) = [] ∧
    ∀ u : Table, dfEmpty u = false →
      u.headers = idVarsOf t.headers ++ ["Year"] ++
        pivotMetrics (meltMap t (idVarsOf t.headers) (tsColsOf t.headers)) →
      process_table b u = some (textify u) := by
  have hne : (tsColsOf t.headers).isEmpty = false := by
    cases hv : tsColsOf t.headers with
    | nil => exact absurd hv hts
    | cons a l => rfl
  have hall : ∀ a ∈ idVarsOf t.headers ++ ["Year"] ++
      pivotMetrics (meltMap t (idVarsOf t.headers) (tsColsOf t.headers)),
      yearSearch a = none := by
    intro a ha
    rcases List.mem_append.mp ha with ha | ha
    · rcases List.mem_append.mp ha with ha | ha
      · exact idVars_no_year ha
      · simp only [List.mem_cons, List.not_mem_nil, or_false] at ha
        subst ha
        rfl
    · exact hm a ha
  refine ⟨?_, ?_, ?_⟩
  · have hout : process_table true t =
        some (resolveTypes (idVarsOf t.headers)
          (pivotOut (idVarsOf t.headers)
            (meltMap t (idVarsOf t.headers) (tsColsOf t.headers)))) := by
      simp only [process_table, h1, hne]
      simp
    rw [hout]
    simp only [Option.map_some']
    rw [resolveTypes_headers]
    simp [pivotOut, keyCols_names, List.map_map, Function.comp_def,
      List.map_id', List.append_assoc]
  · rw [tsColsOf, List.filter_eq_nil_iff]
    intro a ha
    simp [hall a ha]
  · intro u hu hhdr
    refine process_passThrough b u hu ?_
    intro h hh
    rw [hhdr] at hh
    exact hall h hh

/-- Witness for C8: the flatten output of a one-metric table has headers
`["ID", "Year", "Rate"]`, on which a second pass finds no time-series
columns. -/
theorem claim8_witness :
    tsColsOf (idVarsOf c8wtab.headers ++ ["Year"] ++
      pivotMetrics (meltMap c8wtab (idVarsOf c8wtab.headers) (tsColsOf c8wtab.headers))) = [] :=
  (claim8_second_pass true c8wtab (by decide) (by decide) (by decide)).2.1

/-- C10: on the pivot path every kept group key is fully non-missing, so
an input row with a missing value in any anchor column contributes no
(anchor values, Year) row to the pivoted output: its key, for any year,
is not among the output's group keys. -/
theorem claim10_missing_anchor_dropped (t : Table) (i : Nat) (y : String)
    (hmiss : none ∈ (idVarsOf t.headers).map (fun c => colVal t c i)) :
    ((idVarsOf t.headers).map (fun c => colVal t c i)) ++ [some y] ∉
      pivotKeys (meltMap t (idVarsOf t.headers) (tsColsOf t.headers)) ∧
    ∀ k ∈ pivotKeys (meltMap t (idVarsOf t.headers) (tsColsOf t.headers)),
      k.all Option.isSome = true := by
  constructor
  · intro hk
    have hall := mem_pivotKeys_allSome hk
    rw [List.all_append, Bool.and_eq_true] at hall
    have h1 := List.all_eq_true.mp hall.1 none hmiss
    simp at h1
  · intro k hk
    exact mem_pivotKeys_allSome hk

/-- Witness for C10: the one-row table whose ID anchor is missing yields
no pivoted row for its key. -/
theorem claim10_witness :
    ((idVarsOf c10tab.headers).map (fun c => colVal c10tab c 0)) ++ [some "2018"] ∉
      pivotKeys (meltMap c10tab (idVarsOf c10tab.headers) (tsColsOf c10tab.headers)) ∧
    ∀ k ∈ pivotKeys (meltMap c10tab (idVarsOf c10tab.headers) (tsColsOf c10tab.headers)),
      k.all Option.isSome = true :=
  claim10_missing_anchor_dropped c10tab 0 "2018" (by decide)

/-- C2 counterexample: in `c2tab` both melted rows share the key
(A, 2018) and the metric `Rate`, with the FIRST encountered value
missing and the second `"5"`; the claim says the output cell holds the
first encountered value (missing), but the pipeline's `aggfunc="first"`
keeps the first NON-missing value, so the output Rate cell is 5. -/
theorem claim2_counterexample :
    c2melt.map (fun r => (mKey r, r.metric, r.val)) =
      [([some "A", some "2018"], "Rate", (none : Cell)),
       ([some "A", some "2018"], "Rate", some "5")] ∧
    process_table true c2tab =
      some ⟨[("ID", [some (RVal.text "A")]),
             ("Year", [some (RVal.text "2018")]),
             ("Rate", [some (RVal.num 5)])]⟩ := by
  refine ⟨by decide, by decide⟩

/-- C2 amended: for a kept metric `m` and kept group key `k`, the pivot
output has exactly one column named `m`, that column lists the aggregate
of every kept key in order, the entry at `k`'s row is `pivotAgg`, and
`pivotAgg` is the value of the FIRST melted row with that key and metric
whose value is NON-missing, in melt traversal order (missing
contributions are skipped, later duplicates are discarded). -/
theorem claim2_pivot_first_nonmissing (idv : List String) (melted : List MRow)
    (m : String) (k : List Cell)
    (hm : m ∈ pivotMetrics melted) (hk : k ∈ pivotKeys melted)
    (hmi : m ∉ idv) (hmy : m ≠ "Year") :
    List.lookup m (pivotOut idv melted).cols =
      some ((pivotKeys melted).map (fun g => pivotAgg melted g m)) ∧
    ((pivotKeys melted).map (fun g => pivotAgg melted g m)).getD
        (firstIdx k (pivotKeys melted)) none = pivotAgg melted k m ∧
    pivotAgg melted k m =
      (melted.find? (fun r => mKey r == k && r.metric == m && r.val.isSome)).bind
        (fun r => r.val) ∧
    ((pivotOut idv melted).cols.map (·.1)).count m = 1 := by
  have hnm : m ∉ idv ++ ["Year"] := by
    intro hmm
    rcases List.mem_append.mp hmm with h | h
    · exact hmi h
    · simp only [List.mem_cons, List.not_mem_nil, or_false] at h
      exact hmy h
  refine ⟨?_, firstIdx_getD_map hk _ none, rfl, ?_⟩
  · simp only [pivotOut]
    rw [lookup_append_of_none (keyCols_lookup_none hnm 0 _)]
    exact lookup_map_self _ hm
  · have hhdr : (pivotOut idv melted).cols.map (·.1) =
        (idv ++ ["Year"]) ++ pivotMetrics melted := by
      simp [pivotOut, keyCols_names, List.map_map, Function.comp_def, List.map_id']
    rw [hhdr, List.count_append]
    have hz : (idv ++ ["Year"]).count m = 0 := List.count_eq_zero.mpr hnm
    have hnodup : (pivotMetrics melted).Nodup :=
      List.Nodup.filter _ (nodup_sortLe (List.nodup_dedup _))
    rw [hz, List.count_eq_one_of_mem hnodup hm]

/-- Witness for C2's amended statement on the duplicate-metric table. -/
theorem claim2_witness :
    List.lookup "Rate" (pivotOut ["ID"] c2melt).cols =
      some ((pivotKeys c2melt).map (fun g => pivotAgg c2melt g "Rate")) ∧
    ((pivotKeys c2melt).map (fun g => pivotAgg c2melt g "Rate")).getD
        (firstIdx [some "A", some "2018"] (pivotKeys c2melt)) none =
      pivotAgg c2melt [some "A", some "2018"] "Rate" ∧
    pivotAgg c2melt [some "A", some "2018"] "Rate" =
      (c2melt.find? (fun r => mKey r == [some "A", some "2018"] &&
        r.metric == "Rate" && r.val.isSome)).bind (fun r => r.val) ∧
    ((pivotOut ["ID"] c2melt).cols.map (·.1)).count "Rate" = 1 :=
  claim2_pivot_first_nonmissing ["ID"] c2melt "Rate" [some "A", some "2018"]
    (by decide) (by decide) (by decide) (by decide)

theorem getD_of_get? {l : List α} {j : Nat} {a : α} (h : l.get? j = some a)
    (d : α) : l.getD j d = a := by
  induction l generalizing j with
  | nil => simp at h
  | cons b t ih =>
    cases j with
    | zero =>
      simp only [List.get?_cons_zero, Option.some.injEq] at h
      simp [h]
    | succ n =>
      simp only [List.get?_cons_succ] at h
      simp only [List.getD_cons_succ]
      exact ih h

/-- C9 counterexample: in `c9tab` the only row's Sex anchor is missing,
so the pivot grouping drops the row; the anchor value `"A"` present in
the input's ID column appears in NO output row (the output has zero
rows), refuting "every anchor value present in the input appears
unmodified in the corresponding output row". -/
theorem claim9_counterexample :
    List.lookup "ID" c9tab.cols = some [some "A"] ∧
    process_table true c9tab =
      some ⟨[("ID", []), ("Sex", []), ("Year", [])]⟩ := by
  refine ⟨by decide, by decide⟩

/-- C9 amended: (1) the Type Resolver never coerces a column named in the
id vars or named `Year` — it is kept as text unchanged; (2) on the pivot
path, every input row whose anchor values are ALL present and that has a
non-missing cell in some time-series column `v` yields an output row
(its key is among the kept pivot keys), and each anchor column of the
final output holds, at that row, exactly the input row's anchor value
(as text, unmodified).  Rows with a missing anchor are dropped — C10. -/
theorem claim9_anchors_preserved (t : Table) (i : Nat) (v : String)
    (h1 : dfEmpty t = false) (hts : tsColsOf t.headers ≠ [])
    (hi : i < rowCount t) (hv : v ∈ tsColsOf t.headers)
    (hval : (colVal t v i).isSome = true)
    (hanch : ∀ c ∈ idVarsOf t.headers, (colVal t c i).isSome = true) :
    (∀ (idv' : List String) (name : String) (vs : List Cell),
      (idv'.contains name = true ∨ name = "Year") →
      resolveColumn idv' name vs = vs.map (Option.map RVal.text)) ∧
    ((idVarsOf t.headers).map (fun c => colVal t c i)) ++
        [some ((extract_year_and_metric v).1.getD "")] ∈
      pivotKeys (meltMap t (idVarsOf t.headers) (tsColsOf t.headers)) ∧
    process_table true t =
      some (resolveTypes (idVarsOf t.headers)
        (pivotOut (idVarsOf t.headers)
          (meltMap t (idVarsOf t.headers) (tsColsOf t.headers)))) ∧
    ∀ j, j < (idVarsOf t.headers).length →
      ((resolveTypes (idVarsOf t.headers)
          (pivotOut (idVarsOf t.headers)
            (meltMap t (idVarsOf t.headers) (tsColsOf t.headers)))).cols.getD
          j ("", [])).1 = (idVarsOf t.headers).getD j "" ∧
      ((resolveTypes (idVarsOf t.headers)
          (pivotOut (idVarsOf t.headers)
            (meltMap t (idVarsOf t.headers) (tsColsOf t.headers)))).cols.getD
          j ("", [])).2.getD
          (firstIdx (((idVarsOf t.headers).map (fun c => colVal t c i)) ++
            [some ((extract_year_and_metric v).1.getD "")])
            (pivotKeys (meltMap t (idVarsOf t.headers) (tsColsOf t.headers))))
          none =
        (colVal t ((idVarsOf t.headers).getD j "") i).map RVal.text := by
  have hne : (tsColsOf t.headers).isEmpty = false := by
    cases hw : tsColsOf t.headers with
    | nil => exact absurd hw hts
    | cons a l => rfl
  set idv := idVarsOf t.headers with hidv
  set melted := meltMap t idv (tsColsOf t.headers) with hmelted
  set k : List Cell := (idv.map (fun c => colVal t c i)) ++
    [some ((extract_year_and_metric v).1.getD "")] with hkdef
  have hr0 : ({ anchors := idv.map (fun c => colVal t c i)
                origHeader := v
                val := colVal t v i
                year := (extract_year_and_metric v).1.getD ""
                metric := (extract_year_and_metric v).2.getD "" } : MRow) ∈ melted := by
    rw [hmelted]
    unfold meltMap
    rw [List.mem_flatten]
    refine ⟨(List.range (rowCount t)).map (fun j =>
      { anchors := idv.map (fun c => colVal t c j)
        origHeader := v
        val := colVal t v j
        year := ((extract_year_and_metric v).1).getD ""
        metric := ((extract_year_and_metric v).2).getD "" }), ?_, ?_⟩
    · exact List.mem_map_of_mem _ hv
    · exact List.mem_map_of_mem _ (List.mem_range.mpr hi)
  have hkall : k.all Option.isSome = true := by
    rw [hkdef, List.all_append, Bool.and_eq_true]
    constructor
    · rw [List.all_eq_true]
      intro x hx
      obtain ⟨c, hc, rfl⟩ := List.mem_map.mp hx
      exact hanch c hc
    · rfl
  have hkmem : k ∈ pivotSortedKeys melted := by
    simp only [pivotSortedKeys]
    rw [mem_sortLe]
    simp only [pivotValidKeys]
    rw [List.mem_dedup, List.mem_filter]
    exact ⟨List.mem_map_of_mem mKey hr0, hkall⟩
  have hagg : (pivotAgg melted k ((extract_year_and_metric v).2.getD "")).isSome = true := by
    have hfind : (melted.find? (fun r => mKey r == k &&
        r.metric == ((extract_year_and_metric v).2.getD "") && r.val.isSome)).isSome = true := by
      rw [List.find?_isSome]
      refine ⟨_, hr0, ?_⟩
      simp [mKey, hkdef, hval]
    obtain ⟨r, hr⟩ := Option.isSome_iff_exists.mp hfind
    have hp := List.find?_some hr
    rw [Bool.and_eq_true, Bool.and_eq_true] at hp
    simp only [pivotAgg]
    rw [hr]
    exact hp.2
  have hkin : k ∈ pivotKeys melted := by
    simp only [pivotKeys]
    rw [List.mem_filter]
    refine ⟨hkmem, ?_⟩
    rw [List.any_eq_true]
    refine ⟨(extract_year_and_metric v).2.getD "", ?_, hagg⟩
    simp only [pivotAllMetrics]
    rw [mem_sortLe, List.mem_dedup]
    exact List.mem_map_of_mem (fun r => r.metric) hr0
  refine ⟨fun idv' name vs h => resolveColumn_exempt h, hkin, ?_, ?_⟩
  · simp only [process_table, h1, hne]
    simp
  · intro j hj
    have hjn : j < (idv ++ ["Year"]).length := by
      simp only [List.length_append, List.length_cons, List.length_nil]
      omega
    have hjk : j < (keyCols (idv ++ ["Year"]) 0 (pivotKeys melted)).length := by
      rw [keyCols_length]
      exact hjn
    have hget : (resolveTypes idv (pivotOut idv melted)).cols.get? j =
        some (idv.getD j "", resolveColumn idv (idv.getD j "")
          ((pivotKeys melted).map (fun g => g.getD j none))) := by
      show ((pivotOut idv melted).cols.map
        (fun c => (c.1, resolveColumn idv c.1 c.2))).get? j = _
      rw [List.get?_map]
      simp only [pivotOut]
      rw [List.get?_append hjk, keyCols_get? hjn 0 (pivotKeys melted)]
      simp only [Option.map_some']
      rw [getD_append_left_of_lt hj]
      simp [Nat.zero_add]
    constructor
    · rw [getD_of_get? hget]
    · rw [getD_of_get? hget]
      simp only
      rw [resolveColumn_exempt (Or.inl (contains_of_mem (getD_mem_of_lt hj "")))]
      rw [List.map_map]
      rw [firstIdx_getD_map hkin _ none]
      simp only [Function.comp_apply]
      rw [hkdef, getD_append_left_of_lt (by rw [List.length_map]; exact hj)]
      rw [getD_map_of_lt (fun c => colVal t c i) hj none ""]

/-- Witness for C9 on a fully-present one-row table: the resolver keeps
the ID column as text, the row's key is kept by the pivot, and the first
anchor column of the final output holds the input's ID value `"A"`. -/
theorem claim9_witness :
    resolveColumn (idVarsOf c9wtab.headers) "ID" [some "A"] =
      ([some "A"] : List Cell).map (Option.map RVal.text) ∧
    ((idVarsOf c9wtab.headers).map (fun c => colVal c9wtab c 0)) ++
        [some ((extract_year_and_metric "2018 Rate").1.getD "")] ∈
      pivotKeys (meltMap c9wtab (idVarsOf c9wtab.headers) (tsColsOf c9wtab.headers)) ∧
    ((resolveTypes (idVarsOf c9wtab.headers)
        (pivotOut (idVarsOf c9wtab.headers)
          (meltMap c9wtab (idVarsOf c9wtab.headers) (tsColsOf c9wtab.headers)))).cols.getD
        0 ("", [])).2.getD
        (firstIdx (((idVarsOf c9wtab.headers).map (fun c => colVal c9wtab c 0)) ++
          [some ((extract_year_and_metric "2018 Rate").1.getD "")])
          (pivotKeys (meltMap c9wtab (idVarsOf c9wtab.headers) (tsColsOf c9wtab.headers))))
        none =
      (colVal c9wtab ((idVarsOf c9wtab.headers).getD 0 "") 0).map RVal.text := by
  have h := claim9_anchors_preserved c9wtab 0 "2018 Rate" (by decide) (by decide)
    (by decide) (by decide) (by decide) (by decide)
  exact ⟨h.1 (idVarsOf c9wtab.headers) "ID" [some "A"] (Or.inl (by decide)),
    h.2.1, (h.2.2.2 0 (by decide)).2⟩
